import Mathlib

/-!
Shallow embedding of the EPUB chapter-extraction core of the repository
(`src/services/EpubParser.ts`, plus the prebuild script variant of the NCX
resolver).  JavaScript strings are modelled as `List Char` (`Str`); every
JS string/regex operation used by the source is given an executable Lean
model below, scoped to the fragment of inputs the parser actually handles
(ASCII case folding, BMP characters, anchors without regex
metacharacters).  Archive input is modelled at the level the code observes
it: a zip is a finite map from paths to file entries, and each entry
carries both its raw text and the fast-xml-parser view of that text, with
`Option` standing for JavaScript `undefined`.
-/

set_option maxRecDepth 16000
set_option maxHeartbeats 1600000

/-- JavaScript strings, modelled as lists of characters (all the strings
the parser handles are BMP, where UTF-16 code units coincide with code
points, so JS `length`, `slice` and `substring` agree with list
operations). -/
abbrev Str := List Char

/-- Coercion from Lean string literals into the model. -/
def S (s : String) : Str := s.data

/-- The apostrophe character (U+0027). -/
def apos : Char := Char.ofNat 39

/-- ASCII model of JavaScript `String.prototype.toLowerCase` on one
character; the titles and keywords compared case-insensitively in the
theorems below stay inside this fragment. -/
def lcChar (c : Char) : Char :=
  if 'A' ≤ c ∧ c ≤ 'Z' then Char.ofNat (c.toNat + 32) else c

/-- ASCII model of JavaScript `toLowerCase` on a string. -/
def lc (s : Str) : Str := s.map lcChar

/-- Whether `p` is a prefix of `s` (exact characters). -/
def isPre : Str → Str → Bool
  | [], _ => true
  | _ :: _, [] => false
  | a :: p, b :: s => a == b && isPre p s

/-- Whether `p` is a case-insensitive (ASCII) prefix of `s`; models the
`i` flag on the anchored part of a JS regex literal. -/
def ciPre : Str → Str → Bool
  | [], _ => true
  | _ :: _, [] => false
  | a :: p, b :: s => lcChar a == lcChar b && ciPre p s

/-- JavaScript `String.prototype.includes`: `pat` occurs somewhere in
`s`. -/
def strContains (s pat : Str) : Bool :=
  match s with
  | [] => pat.isEmpty
  | _ :: t => isPre pat s || strContains t pat

/-- Index of the first case-insensitive occurrence of `pat` in `s`,
counting from `i`. -/
def firstIdxCiAux (pat : Str) : Str → Nat → Option Nat
  | [], i => if pat.isEmpty then some i else none
  | s@(_ :: t), i => if ciPre pat s then some i else firstIdxCiAux pat t (i + 1)

/-- Index of the first case-insensitive occurrence of `pat` in `s`. -/
def firstIdxCi (s pat : Str) : Option Nat := firstIdxCiAux pat s 0

/-- Index of the first occurrence of the character `c` in `s` (model of
JS `indexOf` restricted to a fixed start). -/
def idxOf : Str → Char → Option Nat
  | [], _ => none
  | b :: t, c => if b == c then some 0 else (idxOf t c).map (· + 1)

/-- Index of the last occurrence of `c` in `s`; model of JS
`lastIndexOf`, only used after an `includes` guard, so the `none` case is
never reached by the parser. -/
def lastIdxOf (s : Str) (c : Char) : Nat :=
  match idxOf s.reverse c with
  | some j => s.length - 1 - j
  | none => 0

/-- The JS `\s` character class (whitespace as matched by
`String.prototype.trim` and `/\s/`). -/
def jsWs (c : Char) : Bool :=
  c == ' ' || c == '\t' || c == '\n' || c == '\r' ||
  c == Char.ofNat 0x0B || c == Char.ofNat 0x0C || c == Char.ofNat 0xA0 ||
  c == Char.ofNat 0x1680 ||
  (Char.ofNat 0x2000 ≤ c && c ≤ Char.ofNat 0x200A) ||
  c == Char.ofNat 0x2028 || c == Char.ofNat 0x2029 ||
  c == Char.ofNat 0x202F || c == Char.ofNat 0x205F ||
  c == Char.ofNat 0x3000 || c == Char.ofNat 0xFEFF

/-- JavaScript `String.prototype.trim`. -/
def jsTrim (s : Str) : Str :=
  ((s.dropWhile jsWs).reverse.dropWhile jsWs).reverse

/-- Model of the global replace `html.replace(/<tag([\s\S]*?)<\/tag>/gi, v)`
with empty replacement: delete every region from a case-insensitive
`<tag` up to and including the earliest following `</tag>`; an opening
with no closing occurrence is left in place (the regex finds no match
there) and scanning continues one character later, as the regex engine
does. -/
def removeTagBlocksF (tag : Str) : Nat → Str → Str
  | _, [] => []
  | 0, s => s
  | fuel + 1, c :: t =>
    if ciPre ('<' :: tag) (c :: t) then
      match firstIdxCiAux ('<' :: '/' :: (tag ++ ['>'])) ((c :: t).drop ('<' :: tag).length) 0 with
      | some j =>
        removeTagBlocksF tag fuel
          ((c :: t).drop (('<' :: tag).length + j + ('<' :: '/' :: (tag ++ ['>'])).length))
      | none => c :: removeTagBlocksF tag fuel t
    else c :: removeTagBlocksF tag fuel t

/-- Entry point: every scanning step consumes at least one character,
so a fuel of `s.length` is never exhausted (the fuel only makes the
recursion structural, it does not change the computed value). -/
def removeTagBlocks (tag : Str) (s : Str) : Str :=
  removeTagBlocksF tag s.length s

/-- Model of `clean.replace(/<[^>]+>/g, ' ')`: each maximal `<...>` group
with at least one character between the brackets becomes one space;
a `<` with no later `>` (or an immediately following `>`) stays. -/
def replTagsF : Nat → Str → Str
  | _, [] => []
  | 0, s => s
  | fuel + 1, c :: t =>
    if c == '<' then
      match idxOf t '>' with
      | some j => if j == 0 then c :: replTagsF fuel t else ' ' :: replTagsF fuel (t.drop (j + 1))
      | none => c :: replTagsF fuel t
    else c :: replTagsF fuel t

/-- Entry point; fuel `s.length` is never exhausted. -/
def replTags (s : Str) : Str := replTagsF s.length s

def collapseWsF : Nat → Str → Str
  | _, [] => []
  | 0, s => s
  | fuel + 1, c :: t =>
    if jsWs c then ' ' :: collapseWsF fuel (t.dropWhile jsWs)
    else c :: collapseWsF fuel t

/-- Model of `text.replace(/\s+/g, ' ')`: every maximal whitespace run
becomes a single space; fuel `s.length` is never exhausted. -/
def collapseWs (s : Str) : Str := collapseWsF s.length s

/-- Model of the global literal replace `s.replace(/pat/g, rep)` for a
non-empty literal pattern: non-overlapping occurrences are replaced left
to right, and replacement text is never rescanned. -/
def replaceAllSubF (pat rep : Str) : Nat → Str → Str
  | _, [] => []
  | 0, s => s
  | fuel + 1, c :: t =>
    if !pat.isEmpty && isPre pat (c :: t) then
      rep ++ replaceAllSubF pat rep fuel ((c :: t).drop pat.length)
    else c :: replaceAllSubF pat rep fuel t

/-- Entry point; all patterns used are non-empty, so every replacement
step consumes at least one character and the fuel `s.length` is never
exhausted. -/
def replaceAllSub (pat rep : Str) (s : Str) : Str :=
  replaceAllSubF pat rep s.length s

/-- Model of `EpubParser.stripHtml` (identical in the app parser and the
prebuild script): remove `<head>`, `<style>`, `<script>`, `<metadata>`
blocks, turn remaining tags into spaces, collapse whitespace, decode the
six named entities in the fixed source order (`&nbsp;` first, then
`&amp;`, `&lt;`, `&gt;`, `&quot;`, `&apos;`), trim, and drop a leading
`Chưa xác định` marker. -/
def stripHtml (html : Str) : Str :=
  let c1 := removeTagBlocks (S "head") html
  let c2 := removeTagBlocks (S "style") c1
  let c3 := removeTagBlocks (S "script") c2
  let c4 := removeTagBlocks (S "metadata") c3
  let t0 := replTags c4
  let t1 := collapseWs t0
  let t2 := replaceAllSub (S "&nbsp;") (S " ") t1
  let t3 := replaceAllSub (S "&amp;") (S "&") t2
  let t4 := replaceAllSub (S "&lt;") (S "<") t3
  let t5 := replaceAllSub (S "&gt;") (S ">") t4
  let t6 := replaceAllSub (S "&quot;") (S "\"") t5
  let t7 := replaceAllSub (S "&apos;") [apos] t6
  let t8 := jsTrim t7
  if isPre (S "Chưa xác định") t8 then
    jsTrim ((t8.drop (S "Chưa xác định").length).dropWhile jsWs)
  else t8

/-- Model of `EpubParser.cleanChapterContent`: trim, drop a
case-insensitive copy of the chapter title from the front, then strip
leading colons, dots, dashes and whitespace. -/
def cleanChapterContent (title content : Str) : Str :=
  let text := jsTrim content
  let cleanTitle := jsTrim title
  let text :=
    if isPre (lc cleanTitle) (lc text) then jsTrim (text.drop cleanTitle.length)
    else text
  jsTrim (text.dropWhile (fun c => c == ':' || c == '.' || c == '-' || jsWs c))

/-- Whether the suffix `s` begins with `pre` + a quote + `anchor` + a
quote, all case-insensitively: one position of the search for the regex
`` `pre["']anchor["']` `` with the `i` flag, for anchors without regex
metacharacters. -/
def anchorMatchAt (pre anchor s : Str) : Bool :=
  ciPre pre s &&
  (match s.drop pre.length with
   | q1 :: r2 =>
     (q1 == '"' || q1 == apos) && ciPre anchor r2 &&
     (match r2.drop anchor.length with
      | q2 :: _ => q2 == '"' || q2 == apos
      | [] => false)
   | [] => false)

/-- Leftmost index at which `anchorMatchAt` succeeds. -/
def anchorFindAux (pre anchor : Str) : Str → Nat → Option Nat
  | [], _ => none
  | s@(_ :: t), i =>
    if anchorMatchAt pre anchor s then some i else anchorFindAux pre anchor t (i + 1)

/-- Model of the pattern loop in `extractContentByAnchor`: try the
`id=["']anchor["']` pattern first and keep its match index if any,
otherwise try `name=["']anchor["']`. -/
def anchorIdx (html anchor : Str) : Option Nat :=
  match anchorFindAux (S "id=") anchor html 0 with
  | some i => some i
  | none => anchorFindAux (S "name=") anchor html 0

/-- Model of `EpubParser.extractContentByAnchor`: locate the anchor
attribute, skip to the end of its opening tag, and strip everything
after that point; fall back to stripping the whole document when the
anchor is absent. -/
def extractContentByAnchor (html anchor : Str) : Str :=
  match anchorIdx html anchor with
  | none => stripHtml html
  | some i =>
    let rest := html.drop i
    match idxOf rest '>' with
    | some j => stripHtml (rest.drop (j + 1))
    | none => stripHtml rest

/-- Simplified model of ECMAScript `new RegExp` compilation for the
embedded pattern `` `id=["']anchor["']` ``: the constructor throws when
the anchor leaves a group unbalanced.  The model counts unescaped
parentheses and is adequate for the anchors exercised here (identifier
characters, for which it returns `true` and the real constructor
succeeds, and a lone `(`, for which it returns `false` and the real
constructor throws). -/
def anchorRegexOk (anchor : Str) : Bool :=
  go 0 anchor
where
  go : Nat → Str → Bool
  | d, [] => d == 0
  | d, '\\' :: rest =>
    match rest with
    | [] => false
    | _ :: t => go d t
  | d, '(' :: t => go (d + 1) t
  | d, ')' :: t => if d == 0 then false else go (d - 1) t
  | d, _ :: t => go d t

/-- `extractContentByAnchor` as the surrounding `try` block observes it:
the `RegExp` constructor runs first and an invalid pattern raises, which
the per-entry handler turns into a skip. -/
def extractContentByAnchorE (html anchor : Str) : Except Unit Str :=
  if anchorRegexOk anchor then .ok (extractContentByAnchor html anchor)
  else .error ()

/-- One attempt of the regex `/<tag[^>]*>([\s\S]*?)<\/tag>/i` at the
start of `s`: requires `<tag`, then the first `>`, then returns the text
up to the earliest closing `</tag>`. -/
def headingAt (tag s : Str) : Option Str :=
  if ciPre ('<' :: tag) s then
    let r := s.drop (tag.length + 1)
    match idxOf r '>' with
    | some j =>
      let body := r.drop (j + 1)
      match firstIdxCiAux ('<' :: '/' :: (tag ++ ['>'])) body 0 with
      | some k => some (body.take k)
      | none => none
    | none => none
  else none

/-- Leftmost match of the heading regex: scan positions left to right,
as the regex engine does when a position fails. -/
def findHeading (tag : Str) : Str → Option Str
  | [] => none
  | s@(_ :: t) =>
    match headingAt tag s with
    | some g => some g
    | none => findHeading tag t

/-- One attempt of `/class=["'][^"']*chapter[^"']*["'][^>]*>([\s\S]*?)</i`
at the start of `s`: the run between the opening quote and the next
quote of either kind must contain `chapter` (case-insensitively), then
the match skips to the first `>` and captures up to the next `<`. -/
def classChapterAt (s : Str) : Option Str :=
  if ciPre (S "class=") s then
    match s.drop 6 with
    | q :: r2 =>
      if q == '"' || q == apos then
        match idxOf2q r2 with
        | some j =>
          if strContains (lc (r2.take j)) (S "chapter") then
            let r3 := r2.drop (j + 1)
            match idxOf r3 '>' with
            | some k =>
              let r4 := r3.drop (k + 1)
              match idxOf r4 '<' with
              | some m => some (r4.take m)
              | none => none
            | none => none
          else none
        | none => none
      else none
    | [] => none
  else none
where
  /-- Index of the first `"` or `'` (the regex class `["']`). -/
  idxOf2q : Str → Option Nat
  | [] => none
  | b :: t =>
    if b == '"' || b == apos then some 0 else (idxOf2q t).map (· + 1)

/-- Leftmost match of the `class=...chapter...` regex. -/
def findClassChapter : Str → Option Str
  | [] => none
  | s@(_ :: t) =>
    match classChapterAt s with
    | some g => some g
    | none => findClassChapter t

/-- Model of `EpubParser.extractTitle`: first `<h1>`, then `<h2>`, then
an element whose `class` attribute contains `chapter`; the captured text
is stripped and trimmed; `none` models the JS `null` return. -/
def extractTitle (html : Str) : Option Str :=
  match findHeading (S "h1") html with
  | some g => some (jsTrim (stripHtml g))
  | none =>
    match findHeading (S "h2") html with
    | some g => some (jsTrim (stripHtml g))
    | none => (findClassChapter html).map (fun g => jsTrim (stripHtml g))

/-- A chapter record as produced by the parser. -/
structure Chapter where
  title : Str
  content : Str
deriving DecidableEq, Repr

/-- The `EpubBook` result record (`{ title, author, chapters }`). -/
structure EpubBook where
  title : Str
  author : Str
  chapters : List Chapter
deriving DecidableEq, Repr

/-- fast-xml-parser yields a bare object for a single child element and
an array for several; every consumer in the source normalizes with
`Array.isArray(x) ? x : [x]`. -/
inductive OneOrMany (α : Type) where
  | one : α → OneOrMany α
  | many : List α → OneOrMany α
deriving DecidableEq, Repr

/-- The `Array.isArray(x) ? x : [x]` normalization. -/
def OneOrMany.toList {α : Type} : OneOrMany α → List α
  | .one a => [a]
  | .many l => l

/-- Shapes a metadata value (`dc:title`, `dc:creator`) can take after XML
parsing: a bare string, an object carrying a `#text` field, or an array
of such values. -/
inductive MetaVal where
  | str : Str → MetaVal
  | obj : Option MetaVal → MetaVal
  | arr : List MetaVal → MetaVal
deriving Repr

/-- JavaScript falsiness for a parsed metadata value (only the empty
string is falsy among the shapes above). -/
def metaFalsy : MetaVal → Bool
  | .str s => s.isEmpty
  | _ => false

/-- Model of `String(v)` on a parsed metadata value: identity on
strings, `[object Object]` on objects, comma-joined rendering on
arrays. -/
def jsStringOf : MetaVal → Str
  | .str s => s
  | .obj _ => S "[object Object]"
  | .arr l => joinComma l
where
  /-- `Array.prototype.toString`: elements rendered and joined by `,`. -/
  joinComma : List MetaVal → Str
  | [] => []
  | [v] => jsStringOf v
  | v :: rest => jsStringOf v ++ ',' :: joinComma rest

/-- The JS `a || b` on two possibly-undefined metadata values. -/
def metaOr (a b : Option MetaVal) : Option MetaVal :=
  match a with
  | some v => if metaFalsy v then b else some v
  | none => b

/-- Model of the title/author shape dispatch in `EpubParser.parse`
(string, `#text` object, array, other), including the `TypeError` the
code raises on an empty-array value (`rawTitle[0]["#text"]` with
`rawTitle[0]` undefined). -/
def extractMetaE (raw : Option MetaVal) (dflt : Str) : Except Str Str :=
  match raw with
  | none => .ok dflt
  | some v =>
    if metaFalsy v then .ok dflt
    else
      match v with
      | .str s => .ok s
      | .obj t =>
        match t with
        | some tv => if metaFalsy tv then .ok (S "[object Object]") else .ok (jsStringOf tv)
        | none => .ok (S "[object Object]")
      | .arr l =>
        match l with
        | [] => .error (S "TypeError")
        | h :: _ =>
          match h with
          | .obj (some tv) => if metaFalsy tv then .ok (jsStringOf h) else .ok (jsStringOf tv)
          | _ => .ok (jsStringOf h)

/-- A manifest `<item>` as the code reads it (`@_id`, `@_href`,
`@_properties`). -/
structure ManItem where
  id : Option Str
  href : Option Str
  properties : Option Str
deriving DecidableEq, Repr

/-- A spine `<itemref>` (`@_idref`). -/
structure ItemRef where
  idref : Option Str
deriving DecidableEq, Repr

/-- The spine element (`@_toc` attribute and `itemref` children). -/
structure SpineD where
  toc : Option Str
  itemref : Option (OneOrMany ItemRef)
deriving DecidableEq, Repr

/-- The metadata element with the four fields the code consults. -/
structure MetaD where
  dcTitle : Option MetaVal
  title : Option MetaVal
  dcCreator : Option MetaVal
  creator : Option MetaVal
deriving Repr

/-- The `package` element of the OPF document.  `manifestItem` models
`package.manifest.item`; `none` covers both a missing `manifest` element
and a manifest with no `item`, which make the code raise a `TypeError`
at the same point (before any chapter output).  `spine` absent raises
only when a fallback stage actually dereferences it. -/
structure PkgRoot where
  metadata : Option MetaD
  manifestItem : Option (OneOrMany ManItem)
  spine : Option SpineD
deriving Repr

/-- The `<a>` child of a nav `<li>`: either a bare string (an anchor
with no attributes) or an object with optional `#text` and `@_href`. -/
inductive AVal where
  | str : Str → AVal
  | obj : Option Str → Option Str → AVal
deriving DecidableEq, Repr

/-- The text of an `<a>` object (`item.a?.["#text"]`); property access
on a bare string yields `undefined`. -/
def AVal.textOf : AVal → Option Str
  | .str _ => none
  | .obj t _ => t

/-- The href of an `<a>` object (`item.a?.["@_href"]`). -/
def AVal.hrefOf : AVal → Option Str
  | .str _ => none
  | .obj _ h => h

/-- JavaScript falsiness of an `<a>` value. -/
def AVal.falsy : AVal → Bool
  | .str s => s.isEmpty
  | .obj _ _ => false

/-- The `<span>` child of a nav `<li>`. -/
inductive SVal where
  | str : Str → SVal
  | obj : Option Str → SVal
deriving DecidableEq, Repr

/-- The text of a `<span>` (`item.span?.["#text"]`). -/
def SVal.textOf : SVal → Option Str
  | .str _ => none
  | .obj t => t

/-- A `<li>` entry of the EPUB3 nav list. -/
structure NavLi where
  a : Option AVal
  span : Option SVal
deriving DecidableEq, Repr

/-- A `<nav>` element: its type attributes and its `ol.li` children
(the `nav?.ol?.li` optional chain collapsed into one field). -/
structure NavElem where
  epubType : Option Str
  typ : Option Str
  olLi : Option (OneOrMany NavLi)
deriving DecidableEq, Repr

/-- An NCX `navPoint`: label text (`navLabel?.text` collapsed), content
source (`content?.["@_src"]` collapsed) and nested child navPoints. -/
inductive NavPoint where
  | mk : Option Str → Option Str → Option (OneOrMany NavPoint) → NavPoint

/-- Label text of a navPoint. -/
def NavPoint.label : NavPoint → Option Str
  | .mk l _ _ => l

/-- Content src of a navPoint. -/
def NavPoint.src : NavPoint → Option Str
  | .mk _ s _ => s

/-- Children of a navPoint. -/
def NavPoint.children : NavPoint → Option (OneOrMany NavPoint)
  | .mk _ _ c => c

/-- The fast-xml-parser view of one file, restricted to the five root
fields the parser ever reads.  `containerFullPath` collapses
`container.rootfiles.rootfile["@_full-path"]` (every absence on that
chain makes the code raise a `TypeError`, at the property access or at
`opfPath.includes`); `htmlBodyNav` collapses `html?.body?.nav`;
`ncxNavPoint` collapses `ncx?.navMap?.navPoint`. -/
structure XmlDoc where
  containerFullPath : Option Str
  pkg : Option PkgRoot
  htmlBodyNav : Option (OneOrMany NavElem)
  nav : Option (OneOrMany NavElem)
  ncxNavPoint : Option (OneOrMany NavPoint)

/-- A zip entry: the raw text (`zip.file(p)?.async('text')`) together
with the fast-xml-parser result of that text, supplied as an oracle so
that the XML library itself stays outside the model. -/
structure FileEntry where
  text : Str
  xml : XmlDoc

/-- An XmlDoc with no recognized root elements (plain content files). -/
def xmlEmpty : XmlDoc := ⟨none, none, none, none, none⟩

/-- A content-file entry. -/
def contEntry (t : String) : FileEntry := ⟨S t, xmlEmpty⟩

/-- Zip lookup: `zip.file(path)` over the entry list. -/
def zipFind (files : List (Str × FileEntry)) (p : Str) : Option FileEntry :=
  (files.find? (fun e => e.1 == p)).map (·.2)

/-- JS property key for a possibly-undefined id: `obj[undefined]` reads
the `"undefined"` key. -/
def mkey (o : Option Str) : Str := o.getD (S "undefined")

/-- The manifest table built by `items.forEach(item =>
manifestItems[item["@_id"]] = item["@_href"])`. -/
def mkManifest (items : List ManItem) : List (Str × Option Str) :=
  items.map (fun it => (mkey it.id, it.href))

/-- Lookup in the manifest table; a later `forEach` assignment to the
same key wins. -/
def mLookup (m : List (Str × Option Str)) (k : Str) : Option (Option Str) :=
  (m.reverse.find? (fun e => e.1 == k)).map (·.2)

/-- `some s` when the JS string is truthy (present and non-empty). -/
def nonEmpty (o : Option Str) : Option Str :=
  match o with
  | some s => if s.isEmpty then none else some s
  | none => none

/-- The JS `String(o || dflt)` idiom for string-or-undefined values. -/
def jsOrStr (o : Option Str) (dflt : Str) : Str :=
  match nonEmpty o with
  | some s => s
  | none => dflt

/-- JS `String.prototype.split` on a single character. -/
def splitOnChar (c : Char) : Str → List Str
  | [] => [[]]
  | x :: t =>
    if x == c then [] :: splitOnChar c t
    else
      match splitOnChar c t with
      | h :: r => (x :: h) :: r
      | [] => [[x]]

/-- The destructuring `const [purePath, anchor] = src.includes('#') ?
src.split('#') : [src, null]`. -/
def splitHash (src : Str) : Str × Option Str :=
  if strContains src (S "#") then
    let parts := splitOnChar '#' src
    (parts.headD [], parts.get? 1)
  else (src, none)

/-- The `skipTitleKeywords` denylist, verbatim from the source. -/
def skipTitleKeywords : List Str :=
  [S "giới thiệu", S "mục lục", S "thông tin", S "bản quyền", S "loi mo dau",
   S "lời mở đầu", S "lời tựa", S "về tác giả", S "tựa đề", S "trang tên",
   S "phụ lục", S "lời cảm ơn", S "loi cam on", S "chú thích", S "bia sách",
   S "tên ebook", S "tác giả:", S "thể loại:", S "nhà xuất bản", S "nguồn:",
   S "biên tập", S "sửa lỗi", S "tâm nguyện cuối cùng", S "cover", S "title",
   S "copyright", S "intro", S "preface", S "info", S "author", S "credits",
   S "so-thao", S "metadata", S "nav", S "frontmatter"]

/-- The title filter `skipTitleKeywords.some(kw =>
title.toLowerCase().includes(kw))`. -/
def denyMatch (title : Str) : Bool :=
  skipTitleKeywords.any (fun kw => strContains (lc title) kw)

/-- The shorter filename denylist of the spine fallback stage. -/
def spineSkipKeywords : List Str :=
  [S "cover", S "title", S "copyright", S "author", S "bia", S "thong-tin",
   S "ban-quyen", S "intro"]

/-- Model of `JSON.stringify` on an `<a>` object value (field order as
inserted by the XML parser; only used when a nav `<li>` has an `<a>`
object with falsy `#text`, and never relied on by the theorems). -/
def jsonOfA : AVal → Str
  | .str s => s
  | .obj t h =>
    S "\x7b" ++
    (List.intercalate (S ",")
      ((t.map (fun v => S "\"#text\":\"" ++ v ++ S "\"")).toList ++
       (h.map (fun v => S "\"@_href\":\"" ++ v ++ S "\"")).toList)) ++
    S "\x7d"

/-- The body of the EPUB3 nav loop for one `<li>`, as the per-entry
`try` block observes it: `.error ()` models a thrown exception (the
`RegExp` constructor on an invalid anchor), `.ok none` a `continue` or a
filtered/short entry, `.ok (some c)` a pushed chapter. -/
def processNavEntry (files : List (Str × FileEntry)) (opfDir : Str)
    (li : NavLi) : Except Unit (Option Chapter) :=
  let rawTitle : Str :=
    match nonEmpty (li.a.bind AVal.textOf) with
    | some s => s
    | none =>
      match nonEmpty (li.span.bind SVal.textOf) with
      | some s => s
      | none =>
        match li.a with
        | some av => if av.falsy then S "Chương không tên" else
            match av with
            | .str s => s
            | .obj _ _ => jsonOfA av
        | none => S "Chương không tên"
  let title := jsTrim (stripHtml rawTitle)
  if denyMatch title then .ok none
  else
    match nonEmpty (li.a.bind AVal.hrefOf) with
    | none => .ok none
    | some src =>
      let (purePath, anchor) := splitHash src
      let contentPath := opfDir ++ purePath
      match zipFind files contentPath with
      | none => .ok none
      | some fe =>
        let textE : Except Unit Str :=
          match nonEmpty anchor with
          | some a => extractContentByAnchorE fe.text a
          | none => .ok (stripHtml fe.text)
        match textE with
        | .error e => .error e
        | .ok t0 =>
          let text := cleanChapterContent title t0
          if text.length > 20 then .ok (some ⟨title, text.take 100000⟩)
          else .ok none

/-- One iteration of the EPUB3 nav loop: a thrown entry or a filtered
entry leaves the accumulator unchanged; a produced chapter is pushed. -/
def navStep (files : List (Str × FileEntry)) (opfDir : Str)
    (acc : List Chapter) (li : NavLi) : List Chapter :=
  match processNavEntry files opfDir li with
  | .error _ => acc
  | .ok none => acc
  | .ok (some c) => acc ++ [c]

/-- The EPUB3 nav loop: each entry runs in its own `try`; a throw leaves
the accumulated chapters unchanged and moves on. -/
def navLoop (files : List (Str × FileEntry)) (opfDir : Str)
    (lis : List NavLi) : List Chapter :=
  lis.foldl (navStep files opfDir) []

/-- The EPUB3 nav stage of `EpubParser.parse`: find the manifest item
flagged `nav`, read it, select the `toc` nav element (or the first), and
run the entry loop. -/
def navChapters (files : List (Str × FileEntry)) (opfDir : Str)
    (items : List ManItem) : List Chapter :=
  match items.find? (fun it => (it.properties.map (fun p => strContains p (S "nav"))).getD false) with
  | none => []
  | some navItem =>
    let navPath := opfDir ++ navItem.href.getD (S "undefined")
    match zipFind files navPath with
    | none => []
    | some e =>
      let navSel : Option (OneOrMany NavElem) :=
        match e.xml.htmlBodyNav with
        | some v => some v
        | none => e.xml.nav
      let navE : Option NavElem :=
        match navSel with
        | none => none
        | some (.one el) => some el
        | some (.many l) =>
          match l.find? (fun n => n.epubType == some (S "toc") || n.typ == some (S "toc")) with
          | some el => some el
          | none => l.head?
      match navE.bind (·.olLi) with
      | none => []
      | some om => navLoop files opfDir om.toList

/-- The body of the NCX loop in `EpubParser.parse` for one top-level
`navPoint`, as its per-entry `try` block observes it. -/
def processNcxPoint (files : List (Str × FileEntry)) (opfDir : Str)
    (p : NavPoint) : Except Unit (Option Chapter) :=
  let title := jsTrim (jsOrStr p.label (S "Chương không tên"))
  if denyMatch title then .ok none
  else
    let src := jsOrStr p.src []
    let (purePath, anchor) := splitHash src
    let contentPath := opfDir ++ purePath
    match zipFind files contentPath with
    | none => .ok none
    | some fe =>
      let textE : Except Unit Str :=
        match nonEmpty anchor with
        | some a => extractContentByAnchorE fe.text a
        | none => .ok (stripHtml fe.text)
      match textE with
      | .error e => .error e
      | .ok t0 =>
        let text := cleanChapterContent title t0
        if text.length > 20 then .ok (some ⟨title, text.take 100000⟩)
        else .ok none

/-- One iteration of the NCX loop. -/
def ncxStep (files : List (Str × FileEntry)) (opfDir : Str)
    (acc : List Chapter) (p : NavPoint) : List Chapter :=
  match processNcxPoint files opfDir p with
  | .error _ => acc
  | .ok none => acc
  | .ok (some c) => acc ++ [c]

/-- The NCX loop of `EpubParser.parse`: iterates the top-level
`navMap.navPoint` entries only (children of a `navPoint` are never
visited), each in its own `try`. -/
def ncxLoop (files : List (Str × FileEntry)) (opfDir : Str)
    (pts : List NavPoint) : List Chapter :=
  pts.foldl (ncxStep files opfDir) []

/-- The NCX stage of `EpubParser.parse`.  It dereferences
`package.spine["@_toc"]`, so a missing spine raises a `TypeError`;
a missing or unresolvable toc reference yields zero chapters. -/
def ncxStageE (files : List (Str × FileEntry)) (opfDir : Str)
    (items : List ManItem) (pkg : PkgRoot) : Except Str (List Chapter) :=
  match pkg.spine with
  | none => .error (S "TypeError")
  | some sp =>
    match nonEmpty ((mLookup (mkManifest items) (mkey sp.toc)).bind id) with
    | none => .ok []
    | some tocHref =>
      match zipFind files (opfDir ++ tocHref) with
      | none => .ok []
      | some te =>
        match te.xml.ncxNavPoint with
        | none => .ok []
        | some om => .ok (ncxLoop files opfDir om.toList)

/-- One step of the spine fallback loop: resolve the idref, filter the
filename, read and strip the file, and push a chapter when the stripped
text exceeds 100 characters — with the sequential `Chương N` label when
no usable heading title exists, and a `continue` when a derived title
matches the denylist. -/
def spineStep (files : List (Str × FileEntry)) (opfDir : Str)
    (manifest : List (Str × Option Str)) (acc : List Chapter)
    (idref : Option Str) : List Chapter :=
  match nonEmpty ((mLookup manifest (mkey idref)).bind id) with
  | none => acc
  | some href =>
    let fileName := lc href
    if spineSkipKeywords.any (fun kw => strContains fileName kw) then acc
    else
      match zipFind files (opfDir ++ href) with
      | none => acc
      | some fe =>
        let text := stripHtml fe.text
        if text.length > 100 then
          match extractTitle fe.text with
          | some t =>
            if !t.isEmpty && denyMatch t then acc
            else
              acc ++ [⟨if t.isEmpty then S "Chương " ++ (Nat.repr (acc.length + 1)).data else t,
                       text.take 100000⟩]
          | none => acc ++ [⟨S "Chương " ++ (Nat.repr (acc.length + 1)).data, text.take 100000⟩]
        else acc

/-- The spine fallback loop over the idref list. -/
def spineLoop (files : List (Str × FileEntry)) (opfDir : Str)
    (manifest : List (Str × Option Str)) (idrefs : List (Option Str)) : List Chapter :=
  idrefs.foldl (spineStep files opfDir manifest) []

/-- The spine fallback stage.  `spine` or `spine.itemref` absent raises
a `TypeError` (`[undefined].map(ref => ref["@_idref"])`). -/
def spineStageE (files : List (Str × FileEntry)) (opfDir : Str)
    (items : List ManItem) (pkg : PkgRoot) : Except Str (List Chapter) :=
  match pkg.spine with
  | none => .error (S "TypeError")
  | some sp =>
    match sp.itemref with
    | none => .error (S "TypeError")
    | some om =>
      .ok (spineLoop files opfDir (mkManifest items) (om.toList.map (·.idref)))

/-- Two chapters agree for deduplication when both the titles and the
first 100 characters of content match exactly. -/
def chapKeyEq (a b : Chapter) : Bool :=
  a.title == b.title && a.content.take 100 == b.content.take 100

/-- The final filter `epubChapters.filter((ch, index, self) => index ===
self.findIndex(t => t.title === ch.title && t.content.slice(0,100) ===
ch.content.slice(0,100)))`. -/
def dedupChapters (l : List Chapter) : List Chapter :=
  (l.enum.filter (fun p => l.findIdx (fun t => chapKeyEq t p.2) == p.1)).map (·.2)

/-- The three extraction stages in their fallback order, followed by
deduplication — the chapter-producing part of `EpubParser.parse` after
the structural prologue. -/
def parseStages (files : List (Str × FileEntry)) (opfDir : Str)
    (items : List ManItem) (pkg : PkgRoot) : Except Str (List Chapter) :=
  let c1 := navChapters files opfDir items
  if c1.isEmpty then
    match ncxStageE files opfDir items pkg with
    | .error e => .error e
    | .ok c2 =>
      if c2.isEmpty then
        match spineStageE files opfDir items pkg with
        | .error e => .error e
        | .ok c3 => .ok (dedupChapters c3)
      else .ok (dedupChapters c2)
  else .ok (dedupChapters c1)

/-- Model of `EpubParser.parse`.  The input is `none` when the bytes
cannot be opened as a zip (`JSZip.loadAsync` rejects); otherwise the
entry list.  Explicit `throw new Error` sites keep their messages; the
implicit property-access failures surface as `TypeError`.  The outer
`catch` in the source logs and rethrows, so propagation is unchanged. -/
def parseEpub (input : Option (List (Str × FileEntry))) : Except Str EpubBook :=
  match input with
  | none => .error (S "InvalidZip")
  | some files =>
    match zipFind files (S "META-INF/container.xml") with
    | none => .error (S "Invalid ePUB: META-INF/container.xml not found")
    | some ce =>
      match ce.xml.containerFullPath with
      | none => .error (S "TypeError")
      | some opfPath =>
        let opfDir :=
          if strContains opfPath (S "/") then opfPath.take (lastIdxOf opfPath '/' + 1)
          else []
        match zipFind files opfPath with
        | none => .error (S "Invalid ePUB: .opf file not found")
        | some oe =>
          match oe.xml.pkg with
          | none => .error (S "TypeError")
          | some pkg =>
            match pkg.metadata with
            | none => .error (S "TypeError")
            | some md =>
              match extractMetaE (metaOr md.dcTitle md.title) (S "Chưa rõ tiêu đề") with
              | .error e => .error e
              | .ok title =>
                match extractMetaE (metaOr md.dcCreator md.creator) (S "Chưa rõ tác giả") with
                | .error e => .error e
                | .ok author =>
                  match pkg.manifestItem with
                  | none => .error (S "TypeError")
                  | some om =>
                    match parseStages files opfDir om.toList pkg with
                    | .error e => .error e
                    | .ok chaps => .ok ⟨title, author, chaps⟩

/-- One navPoint of the prebuild script resolver
(`scripts/generate-db` in the repository, `part_008`): push a chapter
when the src is truthy and the label passes the denylist (the script has
no anchor extraction and no content cap). -/
def p8ChapterOf (files : List (Str × FileEntry)) (opfDir : Str)
    (p : NavPoint) : List Chapter :=
  let title := jsTrim (jsOrStr p.label (S "Chương không tên"))
  let src := jsOrStr p.src []
  if !src.isEmpty && !denyMatch title then
    let cleanSrc := if strContains src (S "#") then (splitOnChar '#' src).headD [] else src
    match zipFind files (opfDir ++ cleanSrc) with
    | none => []
    | some fe =>
      let text := cleanChapterContent title (stripHtml fe.text)
      if text.length > 20 then [⟨title, text⟩] else []
  else []

mutual

/-- The prebuild script `extractNavPoints` on one navPoint: its own
chapter first, then its nested children, recursively. -/
def p8One (files : List (Str × FileEntry)) (opfDir : Str) : NavPoint → List Chapter
  | .mk l s c => p8ChapterOf files opfDir (.mk l s c) ++ p8Children files opfDir c

/-- The recursive call `if (point.navPoint) await
extractNavPoints(point.navPoint)`. -/
def p8Children (files : List (Str × FileEntry)) (opfDir : Str) :
    Option (OneOrMany NavPoint) → List Chapter
  | none => []
  | some (.one p) => p8One files opfDir p
  | some (.many l) => p8Many files opfDir l

/-- The loop of `extractNavPoints` over a normalized navPoint list. -/
def p8Many (files : List (Str × FileEntry)) (opfDir : Str) :
    List NavPoint → List Chapter
  | [] => []
  | p :: t => p8One files opfDir p ++ p8Many files opfDir t

end

/-- The prebuild script `extractNavPoints` entry point (`if (!points)
return` then normalize and loop). -/
def extractNavPoints (files : List (Str × FileEntry)) (opfDir : Str)
    (pts : Option (OneOrMany NavPoint)) : List Chapter :=
  p8Children files opfDir pts

/-- Replace the NCX view (`ncx.navMap.navPoint`) of every file entry;
text and all other parsed views are untouched.  Used to state that the
NCX document cannot influence a parse whose nav stage succeeded. -/
def updNcx (files : List (Str × FileEntry)) (v : Option (OneOrMany NavPoint)) :
    List (Str × FileEntry) :=
  files.map (fun e => (e.1, ⟨e.2.text, ⟨e.2.xml.containerFullPath, e.2.xml.pkg,
    e.2.xml.htmlBodyNav, e.2.xml.nav, v⟩⟩))

/-- Replace the spine itemref list, leaving the toc reference in place.
Used to state that the spine reading order cannot influence a parse in
which a navigation stage produced chapters. -/
def setItemref (pkg : PkgRoot) (irs : Option (OneOrMany ItemRef)) : PkgRoot :=
  ⟨pkg.metadata, pkg.manifestItem, pkg.spine.map (fun sp => ⟨sp.toc, irs⟩)⟩

/-- A metadata value whose shape the title/author dispatch survives (the
only raising shape is an empty array). -/
def metaSafe : Option MetaVal → Bool
  | some (.arr []) => false
  | _ => true

/-- Structural wellformedness of an archive: container present and
resolvable, package document present with metadata of safe shape,
manifest items present, spine with itemref present.  Nothing is assumed
about navigation documents, NCX references or content files. -/
def skeletonOk (files : List (Str × FileEntry)) : Bool :=
  match zipFind files (S "META-INF/container.xml") with
  | none => false
  | some ce =>
    match ce.xml.containerFullPath with
    | none => false
    | some p =>
      match zipFind files p with
      | none => false
      | some oe =>
        match oe.xml.pkg with
        | none => false
        | some pkg =>
          match pkg.metadata with
          | none => false
          | some md =>
            metaSafe (metaOr md.dcTitle md.title) &&
            metaSafe (metaOr md.dcCreator md.creator) &&
            pkg.manifestItem.isSome &&
            (match pkg.spine with
             | some sp => sp.itemref.isSome
             | none => false)

/-- The deduplication rule in the words of the specification: a chapter
is removed exactly when some earlier chapter of the original list has an
exactly equal title and exactly equal first 100 characters of content;
the first occurrence is kept and survivor order is preserved. -/
def dedupGo (seen : List Chapter) : List Chapter → List Chapter
  | [] => []
  | c :: t =>
    if seen.any (fun p => chapKeyEq p c) then dedupGo (seen ++ [c]) t
    else c :: dedupGo (seen ++ [c]) t

/-- Specification-side deduplication over a whole list. -/
def dedupSpec (l : List Chapter) : List Chapter := dedupGo [] l

/-- XmlDoc of a container document resolving to `p`. -/
def xmlContainer (p : String) : XmlDoc := ⟨some (S p), none, none, none, none⟩

/-- XmlDoc of a package document. -/
def xmlPkg (p : PkgRoot) : XmlDoc := ⟨none, some p, none, none, none⟩

/-- XmlDoc of an EPUB3 nav document (`html.body.nav`). -/
def xmlNav (n : OneOrMany NavElem) : XmlDoc := ⟨none, none, some n, none, none⟩

/-- XmlDoc of an NCX document (`ncx.navMap.navPoint`). -/
def xmlNcx (n : OneOrMany NavPoint) : XmlDoc := ⟨none, none, none, none, some n⟩

/-- Shared sample metadata. -/
def mdSimple : MetaD :=
  ⟨some (.str (S "Sample Book")), none, some (.str (S "Sample Author")), none⟩

/-- Manifest of the two-anchored-blocks archive: a nav document and one
content file holding both chapter blocks. -/
def itemsA1 : List ManItem :=
  [⟨some (S "nav"), some (S "nav.xhtml"), some (S "nav")⟩,
   ⟨some (S "c1"), some (S "chapter.html"), none⟩]

/-- Package of the two-anchored-blocks archive. -/
def pkgA1 : PkgRoot := ⟨some mdSimple, some (.many itemsA1), some ⟨none, some (.many [])⟩⟩

/-- Nav entries pointing at the two anchors of one file. -/
def navLisA1 : List NavLi :=
  [⟨some (.obj (some (S "Part One")) (some (S "chapter.html#ch1"))), none⟩,
   ⟨some (.obj (some (S "Part Two")) (some (S "chapter.html#ch2"))), none⟩]

/-- The two-anchored-blocks archive: one HTML file with `ch1` and `ch2`
blocks, referenced by two nav entries with anchors. -/
def filesA1 : List (Str × FileEntry) :=
  [(S "META-INF/container.xml", ⟨[], xmlContainer "OEBPS/content.opf"⟩),
   (S "OEBPS/content.opf", ⟨[], xmlPkg pkgA1⟩),
   (S "OEBPS/nav.xhtml", ⟨[], xmlNav (.one ⟨some (S "toc"), none, some (.many navLisA1)⟩)⟩),
   (S "OEBPS/chapter.html", contEntry "<html><body><div id=\"ch1\"><p>Alpha bravo charlie delta echo foxtrot.</p></div><div id=\"ch2\"><p>Golf hotel india juliet kilo lima.</p></div></body></html>")]

/-- Nested NCX structure: a top-level navPoint with one nested child. -/
def ncxChild : NavPoint := .mk (some (S "Second Part")) (some (S "c2.html")) none

/-- Top-level navPoint containing `ncxChild`. -/
def ncxTop : NavPoint := .mk (some (S "Opening")) (some (S "c1.html")) (some (.one ncxChild))

/-- Manifest of the nested-NCX archive. -/
def itemsA2 : List ManItem := [⟨some (S "ncx"), some (S "toc.ncx"), none⟩]

/-- Package of the nested-NCX archive (spine toc points at the NCX). -/
def pkgA2 : PkgRoot := ⟨some mdSimple, some (.many itemsA2), some ⟨some (S "ncx"), some (.many [])⟩⟩

/-- The nested-NCX archive. -/
def filesA2 : List (Str × FileEntry) :=
  [(S "META-INF/container.xml", ⟨[], xmlContainer "content.opf"⟩),
   (S "content.opf", ⟨[], xmlPkg pkgA2⟩),
   (S "toc.ncx", ⟨[], xmlNcx (.one ncxTop)⟩),
   (S "c1.html", contEntry "<p>It began on a quiet morning in the village.</p>"),
   (S "c2.html", contEntry "<p>The second morning brought rain and cold wind.</p>")]

/-- Manifest of the spine-fallback scenario archive (item 2 is a cover
file). -/
def itemsA4 : List ManItem :=
  [⟨some (S "a"), some (S "a1.html"), none⟩,
   ⟨some (S "b"), some (S "cover.xhtml"), none⟩,
   ⟨some (S "c"), some (S "c3.html"), none⟩]

/-- Package of the spine-fallback scenario archive: no nav property, no
toc reference, a 3-item spine. -/
def pkgA4 : PkgRoot :=
  ⟨some mdSimple, some (.many itemsA4),
   some ⟨none, some (.many [⟨some (S "a")⟩, ⟨some (S "b")⟩, ⟨some (S "c")⟩])⟩⟩

/-- The spine-fallback scenario archive: three spine items, the middle
one filtered by filename, the other two headingless prose files. -/
def filesA4 : List (Str × FileEntry) :=
  [(S "META-INF/container.xml", ⟨[], xmlContainer "content.opf"⟩),
   (S "content.opf", ⟨[], xmlPkg pkgA4⟩),
   (S "a1.html", contEntry "<p>Along the river the travelers walked for many days, carrying water and bread, and telling quiet stories to pass the long hours.</p>"),
   (S "cover.xhtml", contEntry "<p>Decorative cover page.</p>"),
   (S "c3.html", contEntry "<p>Beyond the mountains the winter came early that year, and the small town gathered wood and grain against the cold season ahead.</p>")]

/-- Package of the denylisted-heading archive: one spine item whose file
carries an `<h1>Copyright</h1>` heading over a long body. -/
def pkgB4 : PkgRoot :=
  ⟨some mdSimple, some (.many [⟨some (S "d"), some (S "d.html"), none⟩]),
   some ⟨none, some (.many [⟨some (S "d")⟩])⟩⟩

/-- The denylisted-heading archive for the spine fallback. -/
def filesB4 : List (Str × FileEntry) :=
  [(S "META-INF/container.xml", ⟨[], xmlContainer "content.opf"⟩),
   (S "content.opf", ⟨[], xmlPkg pkgB4⟩),
   (S "d.html", contEntry "<h1>Copyright</h1><p>Beyond the mountains the winter came early that year, and the small town gathered wood and grain against the cold season ahead.</p>")]

/-- An archive whose container and package documents are present but
whose manifest has no `item` (the XML-shape anomaly of claim C5). -/
def filesF5 : List (Str × FileEntry) :=
  [(S "META-INF/container.xml", ⟨[], xmlContainer "content.opf"⟩),
   (S "content.opf", ⟨[], xmlPkg ⟨some mdSimple, none, some ⟨none, some (.many [])⟩⟩⟩)]

/-- A nav entry whose href anchor `(` makes the `RegExp` constructor in
`extractContentByAnchor` throw. -/
def liBad : NavLi := ⟨some (.obj (some (S "Broken Entry")) (some (S "x.html#("))), none⟩

/-- A well-behaved nav entry over the same file. -/
def liGood : NavLi := ⟨some (.obj (some (S "Good Entry")) (some (S "x.html"))), none⟩

/-- File list backing `liBad`/`liGood`. -/
def filesFBad : List (Str × FileEntry) :=
  [(S "x.html", contEntry "<p>Some broken anchor content that is long enough.</p>")]

/-- Package of the title-echo archive: one spine item whose file body
begins with its own heading text. -/
def pkgEcho : PkgRoot :=
  ⟨some mdSimple, some (.many [⟨some (S "e"), some (S "e1.html"), none⟩]),
   some ⟨none, some (.many [⟨some (S "e")⟩])⟩⟩

/-- The title-echo archive for the spine fallback stage. -/
def filesEcho : List (Str × FileEntry) :=
  [(S "META-INF/container.xml", ⟨[], xmlContainer "content.opf"⟩),
   (S "content.opf", ⟨[], xmlPkg pkgEcho⟩),
   (S "e1.html", contEntry "<h1>Chapter One</h1><p>Chapter One. It was a dark and stormy night when the travelers finally reached the gates of the silent city.</p>")]

/-- Manifest of the denylisted-nav-title archive. -/
def itemsC9 : List ManItem :=
  [⟨some (S "nav"), some (S "nav.xhtml"), some (S "nav")⟩,
   ⟨some (S "n1"), some (S "n1.html"), none⟩]

/-- The denylisted-nav-title archive: a single nav entry titled
`Navigating Home` over a long content file. -/
def filesC9 : List (Str × FileEntry) :=
  [(S "nav.xhtml", ⟨[], xmlNav (.one ⟨some (S "toc"), none,
     some (.one ⟨some (.obj (some (S "Navigating Home")) (some (S "n1.html"))), none⟩)⟩)⟩),
   (S "n1.html", contEntry "<p>A long and perfectly ordinary chapter about finding the way back home across the sea.</p>")]

seal S stripHtml jsTrim lc denyMatch cleanChapterContent extractContentByAnchor
seal extractContentByAnchorE extractTitle jsonOfA anchorRegexOk strContains isPre
seal ciPre idxOf firstIdxCiAux replaceAllSub collapseWs replTags removeTagBlocks
seal replaceAllSubF collapseWsF replTagsF removeTagBlocksF splitOnChar splitHash
seal jsOrStr nonEmpty mkey jsStringOf lastIdxOf jsWs lcChar anchorFindAux anchorIdx
seal headingAt findHeading classChapterAt findClassChapter anchorMatchAt firstIdxCi

theorem navStep_error (files : List (Str × FileEntry)) (opfDir : Str)
    (acc : List Chapter) (e : NavLi)
    (h : processNavEntry files opfDir e = .error ()) :
    navStep files opfDir acc e = acc := by
  simp [navStep, h]

theorem ncxStep_error (files : List (Str × FileEntry)) (opfDir : Str)
    (acc : List Chapter) (p : NavPoint)
    (h : processNcxPoint files opfDir p = .error ()) :
    ncxStep files opfDir acc p = acc := by
  simp [ncxStep, h]

theorem navLoop_skip_error (files : List (Str × FileEntry)) (opfDir : Str)
    (e : NavLi) (h : processNavEntry files opfDir e = .error ())
    (pre post : List NavLi) :
    navLoop files opfDir (pre ++ e :: post) = navLoop files opfDir (pre ++ post) := by
  simp only [navLoop, List.foldl_append, List.foldl_cons]
  rw [navStep_error files opfDir _ e h]

theorem ncxLoop_skip_error (files : List (Str × FileEntry)) (opfDir : Str)
    (p : NavPoint) (h : processNcxPoint files opfDir p = .error ())
    (pre post : List NavPoint) :
    ncxLoop files opfDir (pre ++ p :: post) = ncxLoop files opfDir (pre ++ post) := by
  simp only [ncxLoop, List.foldl_append, List.foldl_cons]
  rw [ncxStep_error files opfDir _ p h]

theorem processNavEntry_deny (files : List (Str × FileEntry)) (opfDir : Str)
    (li : NavLi) (c : Chapter)
    (h : processNavEntry files opfDir li = .ok (some c)) :
    denyMatch c.title = false := by
  simp only [processNavEntry] at h
  repeat' split at h
  all_goals try cases h
  all_goals simp_all

theorem processNcxPoint_deny (files : List (Str × FileEntry)) (opfDir : Str)
    (p : NavPoint) (c : Chapter)
    (h : processNcxPoint files opfDir p = .ok (some c)) :
    denyMatch c.title = false := by
  simp only [processNcxPoint] at h
  repeat' split at h
  all_goals try cases h
  all_goals simp_all

theorem mem_foldl_navStep (files : List (Str × FileEntry)) (opfDir : Str) :
    ∀ (lis : List NavLi) (acc : List Chapter) (c : Chapter),
      c ∈ lis.foldl (navStep files opfDir) acc →
      c ∈ acc ∨ ∃ li ∈ lis, processNavEntry files opfDir li = .ok (some c) := by
  intro lis
  induction lis with
  | nil => intro acc c h; exact Or.inl h
  | cons li t ih =>
    intro acc c h
    simp only [List.foldl_cons] at h
    rcases ih (navStep files opfDir acc li) c h with h1 | h1
    · unfold navStep at h1
      split at h1
      · exact Or.inl h1
      · exact Or.inl h1
      · rcases List.mem_append.mp h1 with h2 | h2
        · exact Or.inl h2
        · rename_i ch heq
          simp only [List.mem_singleton] at h2
          subst h2
          exact Or.inr ⟨li, List.mem_cons_self li t, heq⟩
    · rcases h1 with ⟨li', hmem, hpe⟩
      exact Or.inr ⟨li', List.mem_cons_of_mem li hmem, hpe⟩

theorem mem_navLoop (files : List (Str × FileEntry)) (opfDir : Str)
    (lis : List NavLi) (c : Chapter) (h : c ∈ navLoop files opfDir lis) :
    ∃ li ∈ lis, processNavEntry files opfDir li = .ok (some c) := by
  rcases mem_foldl_navStep files opfDir lis [] c h with h1 | h1
  · cases h1
  · exact h1

theorem mem_foldl_ncxStep (files : List (Str × FileEntry)) (opfDir : Str) :
    ∀ (pts : List NavPoint) (acc : List Chapter) (c : Chapter),
      c ∈ pts.foldl (ncxStep files opfDir) acc →
      c ∈ acc ∨ ∃ p ∈ pts, processNcxPoint files opfDir p = .ok (some c) := by
  intro pts
  induction pts with
  | nil => intro acc c h; exact Or.inl h
  | cons p t ih =>
    intro acc c h
    simp only [List.foldl_cons] at h
    rcases ih (ncxStep files opfDir acc p) c h with h1 | h1
    · unfold ncxStep at h1
      split at h1
      · exact Or.inl h1
      · exact Or.inl h1
      · rcases List.mem_append.mp h1 with h2 | h2
        · exact Or.inl h2
        · rename_i ch heq
          simp only [List.mem_singleton] at h2
          subst h2
          exact Or.inr ⟨p, List.mem_cons_self p t, heq⟩
    · rcases h1 with ⟨p', hmem, hpe⟩
      exact Or.inr ⟨p', List.mem_cons_of_mem p hmem, hpe⟩

theorem mem_ncxLoop (files : List (Str × FileEntry)) (opfDir : Str)
    (pts : List NavPoint) (c : Chapter) (h : c ∈ ncxLoop files opfDir pts) :
    ∃ p ∈ pts, processNcxPoint files opfDir p = .ok (some c) := by
  rcases mem_foldl_ncxStep files opfDir pts [] c h with h1 | h1
  · cases h1
  · exact h1

theorem mem_spineStep (files : List (Str × FileEntry)) (opfDir : Str)
    (manifest : List (Str × Option Str)) (acc : List Chapter)
    (i : Option Str) (c : Chapter)
    (h : c ∈ spineStep files opfDir manifest acc i) :
    c ∈ acc ∨ ∃ p fe, zipFind files p = some fe ∧
      c.content = (stripHtml fe.text).take 100000 := by
  simp only [spineStep] at h
  repeat' split at h
  all_goals try exact Or.inl h
  all_goals
    rcases List.mem_append.mp h with h2 | h2
  all_goals try exact Or.inl h2
  all_goals
    simp only [List.mem_singleton] at h2
    subst h2
    rename zipFind files _ = some _ => hz
    exact Or.inr ⟨_, _, hz, rfl⟩

theorem mem_spineLoop (files : List (Str × FileEntry)) (opfDir : Str)
    (manifest : List (Str × Option Str)) (idrefs : List (Option Str))
    (c : Chapter) (h : c ∈ spineLoop files opfDir manifest idrefs) :
    ∃ p fe, zipFind files p = some fe ∧
      c.content = (stripHtml fe.text).take 100000 := by
  suffices hs : ∀ (l : List (Option Str)) (acc : List Chapter),
      c ∈ l.foldl (spineStep files opfDir manifest) acc →
      c ∈ acc ∨ ∃ p fe, zipFind files p = some fe ∧
        c.content = (stripHtml fe.text).take 100000 by
    rcases hs idrefs [] h with h1 | h1
    · cases h1
    · exact h1
  intro l
  induction l with
  | nil => intro acc hc; exact Or.inl hc
  | cons i t ih =>
    intro acc hc
    simp only [List.foldl_cons] at hc
    rcases ih (spineStep files opfDir manifest acc i) hc with h1 | h1
    · exact mem_spineStep files opfDir manifest acc i c h1
    · exact Or.inr h1

theorem zipFind_updNcx (files : List (Str × FileEntry))
    (v : Option (OneOrMany NavPoint)) (p : Str) :
    zipFind (updNcx files v) p =
      (zipFind files p).map (fun fe =>
        ⟨fe.text, ⟨fe.xml.containerFullPath, fe.xml.pkg, fe.xml.htmlBodyNav,
          fe.xml.nav, v⟩⟩) := by
  induction files with
  | nil => rfl
  | cons e t ih =>
    obtain ⟨p1, fe1⟩ := e
    simp only [updNcx, List.map_cons] at *
    by_cases hc : (p1 == p) = true
    · simp [zipFind, List.find?_cons, hc]
    · simp only [zipFind, List.find?_cons] at *
      simp only [hc, cond_false]
      exact ih

theorem processNavEntry_updNcx (files : List (Str × FileEntry))
    (v : Option (OneOrMany NavPoint)) (opfDir : Str) (li : NavLi) :
    processNavEntry (updNcx files v) opfDir li = processNavEntry files opfDir li := by
  simp only [processNavEntry, zipFind_updNcx]
  split
  · rfl
  · split
    · rfl
    · rename_i src heq
      rcases hsp : splitHash src with ⟨pp, aa⟩
      simp only [hsp]
      cases hz : zipFind files (opfDir ++ pp) <;> simp [hz]

theorem navStep_updNcx (files : List (Str × FileEntry))
    (v : Option (OneOrMany NavPoint)) (opfDir : Str) (acc : List Chapter) (li : NavLi) :
    navStep (updNcx files v) opfDir acc li = navStep files opfDir acc li := by
  simp only [navStep, processNavEntry_updNcx]

theorem navLoop_updNcx (files : List (Str × FileEntry))
    (v : Option (OneOrMany NavPoint)) (opfDir : Str) (lis : List NavLi) :
    navLoop (updNcx files v) opfDir lis = navLoop files opfDir lis := by
  suffices h : ∀ (l : List NavLi) (acc : List Chapter),
      l.foldl (navStep (updNcx files v) opfDir) acc = l.foldl (navStep files opfDir) acc from
    h lis []
  intro l
  induction l with
  | nil => intro acc; rfl
  | cons li t ih =>
    intro acc
    simp only [List.foldl_cons, navStep_updNcx]
    exact ih _

theorem navChapters_updNcx (files : List (Str × FileEntry))
    (v : Option (OneOrMany NavPoint)) (opfDir : Str) (items : List ManItem) :
    navChapters (updNcx files v) opfDir items = navChapters files opfDir items := by
  simp only [navChapters, zipFind_updNcx]
  split
  · rfl
  · rename_i navItem heq
    cases hz : zipFind files (opfDir ++ navItem.href.getD (S "undefined")) <;>
      simp [hz, navLoop_updNcx]

theorem ncxStageE_setItemref (files : List (Str × FileEntry)) (opfDir : Str)
    (items : List ManItem) (pkg : PkgRoot) (irs : Option (OneOrMany ItemRef)) :
    ncxStageE files opfDir items (setItemref pkg irs) = ncxStageE files opfDir items pkg := by
  cases hsp : pkg.spine with
  | none => simp [ncxStageE, setItemref, hsp]
  | some sp => simp [ncxStageE, setItemref, hsp]

theorem extractMetaE_ok (v : Option MetaVal) (d : Str) (h : metaSafe v = true) :
    ∃ s, extractMetaE v d = .ok s := by
  unfold extractMetaE
  repeat' split
  all_goals first
  | exact ⟨_, rfl⟩
  | (exfalso; simp_all [metaSafe])

theorem ncxStageE_isOk (files : List (Str × FileEntry)) (opfDir : Str)
    (items : List ManItem) (pkg : PkgRoot) (sp : SpineD) (h : pkg.spine = some sp) :
    ∃ l, ncxStageE files opfDir items pkg = .ok l := by
  simp only [ncxStageE, h]
  repeat' split
  all_goals exact ⟨_, rfl⟩

theorem spineStageE_isOk (files : List (Str × FileEntry)) (opfDir : Str)
    (items : List ManItem) (pkg : PkgRoot) (sp : SpineD) (om : OneOrMany ItemRef)
    (hsp : pkg.spine = some sp) (hir : sp.itemref = some om) :
    ∃ l, spineStageE files opfDir items pkg = .ok l := by
  simp only [spineStageE, hsp, hir]
  exact ⟨_, rfl⟩

theorem parseStages_isOk (files : List (Str × FileEntry)) (opfDir : Str)
    (items : List ManItem) (pkg : PkgRoot) (sp : SpineD) (om : OneOrMany ItemRef)
    (hsp : pkg.spine = some sp) (hir : sp.itemref = some om) :
    ∃ l, parseStages files opfDir items pkg = .ok l := by
  obtain ⟨l2, h2⟩ := ncxStageE_isOk files opfDir items pkg sp hsp
  obtain ⟨l3, h3⟩ := spineStageE_isOk files opfDir items pkg sp om hsp hir
  simp only [parseStages, h2, h3]
  repeat' split
  all_goals exact ⟨_, rfl⟩

theorem parseEpub_ok_of_skeleton (files : List (Str × FileEntry))
    (h : skeletonOk files = true) : ∃ b, parseEpub (some files) = .ok b := by
  cases hce : zipFind files (S "META-INF/container.xml") with
  | none => simp [skeletonOk, hce] at h
  | some ce =>
    cases hcfp : ce.xml.containerFullPath with
    | none => simp [skeletonOk, hce, hcfp] at h
    | some p =>
      cases hoe : zipFind files p with
      | none => simp [skeletonOk, hce, hcfp, hoe] at h
      | some oe =>
        cases hpkg : oe.xml.pkg with
        | none => simp [skeletonOk, hce, hcfp, hoe, hpkg] at h
        | some pkg =>
          cases hmd : pkg.metadata with
          | none => simp [skeletonOk, hce, hcfp, hoe, hpkg, hmd] at h
          | some md =>
            simp only [skeletonOk, hce, hcfp, hoe, hpkg, hmd, Bool.and_eq_true] at h
            obtain ⟨⟨⟨hm1, hm2⟩, hmi⟩, hspn⟩ := h
            obtain ⟨om, hom⟩ := Option.isSome_iff_exists.mp hmi
            cases hs : pkg.spine with
            | none => rw [hs] at hspn; cases hspn
            | some sp =>
              rw [hs] at hspn
              obtain ⟨omr, homr⟩ := Option.isSome_iff_exists.mp hspn
              obtain ⟨t1, ht1⟩ :=
                extractMetaE_ok (metaOr md.dcTitle md.title) (S "Chưa rõ tiêu đề") hm1
              obtain ⟨t2, ht2⟩ :=
                extractMetaE_ok (metaOr md.dcCreator md.creator) (S "Chưa rõ tác giả") hm2
              obtain ⟨chaps, hch⟩ :=
                parseStages_isOk files
                  (if strContains p (S "/") then p.take (lastIdxOf p '/' + 1) else [])
                  om.toList pkg sp omr hs homr
              refine ⟨⟨t1, t2, chaps⟩, ?_⟩
              simp only [parseEpub, hce, hcfp, hoe, hpkg, hmd, ht1, ht2, hom, hch]

theorem chapKeyEq_self (c : Chapter) : chapKeyEq c c = true := by
  simp [chapKeyEq]

theorem findIdx_append_cons (p : Chapter → Bool) (x : Chapter) (hx : p x = true) :
    ∀ (pre t : List Chapter),
      (List.findIdx p (pre ++ x :: t) = pre.length ↔ pre.any p = false) := by
  intro pre
  induction pre with
  | nil =>
    intro t
    simp [List.findIdx_cons, hx]
  | cons a pr ih =>
    intro t
    simp only [List.cons_append, List.findIdx_cons, List.any_cons, List.length_cons]
    cases hpa : p a
    · simp only [cond_false, Bool.false_or]
      rw [Nat.add_right_cancel_iff]
      exact ih t
    · simp [cond_true]

theorem dedupGo_eq (l : List Chapter) : ∀ (pre : List Chapter),
    ((l.enumFrom pre.length).filter
      (fun q => (pre ++ l).findIdx (fun t => chapKeyEq t q.2) == q.1)).map Prod.snd
    = dedupGo pre l := by
  induction l with
  | nil => intro pre; rfl
  | cons c t ih =>
    intro pre
    have hkey := findIdx_append_cons (fun x => chapKeyEq x c) c (chapKeyEq_self c) pre t
    have happ : pre ++ c :: t = (pre ++ [c]) ++ t := by simp
    have hlen : pre.length + 1 = (pre ++ [c]).length := by simp
    cases hseen : pre.any (fun x => chapKeyEq x c)
    · have hidx : ((pre ++ c :: t).findIdx (fun x => chapKeyEq x c) == pre.length) = true := by
        simp only [beq_iff_eq]
        exact hkey.mpr hseen
      simp only [List.enumFrom, List.filter_cons, hidx, if_pos, List.map_cons]
      rw [happ, hlen, ih ((pre ++ [c]))]
      simp [dedupGo, hseen]
    · have hidx : ((pre ++ c :: t).findIdx (fun x => chapKeyEq x c) == pre.length) = false := by
        simp only [beq_eq_false_iff_ne, ne_eq]
        intro hcontra
        rw [hkey.mp hcontra] at hseen
        cases hseen
      simp only [List.enumFrom, List.filter_cons, hidx, if_neg, Bool.false_eq_true,
        not_false_iff]
      rw [happ, hlen, ih ((pre ++ [c]))]
      simp [dedupGo, hseen]

theorem dedupChapters_eq_spec (l : List Chapter) : dedupChapters l = dedupSpec l := by
  have h := dedupGo_eq l []
  simpa [dedupChapters, dedupSpec, List.enum] using h

theorem dedupChapters_sublist (l : List Chapter) : (dedupChapters l).Sublist l := by
  have h1 : (l.enum.filter
      (fun q => l.findIdx (fun t => chapKeyEq t q.2) == q.1)).Sublist l.enum :=
    List.filter_sublist _
  have h2 := h1.map Prod.snd
  rw [List.enum_map_snd] at h2
  exact h2

theorem parseStages_nav (files : List (Str × FileEntry)) (opfDir : Str)
    (items : List ManItem) (pkg : PkgRoot)
    (h : navChapters files opfDir items ≠ []) :
    parseStages files opfDir items pkg =
      .ok (dedupChapters (navChapters files opfDir items)) := by
  have hne : (navChapters files opfDir items).isEmpty = false := by
    cases hnav : navChapters files opfDir items with
    | nil => exact absurd hnav h
    | cons a t => rfl
  simp [parseStages, hne]

theorem parseStages_ncx (files : List (Str × FileEntry)) (opfDir : Str)
    (items : List ManItem) (pkg : PkgRoot) (l : List Chapter)
    (h1 : navChapters files opfDir items = [])
    (h2 : ncxStageE files opfDir items pkg = .ok l) (h3 : l ≠ []) :
    parseStages files opfDir items pkg = .ok (dedupChapters l) := by
  have hl : l.isEmpty = false := by
    cases hll : l with
    | nil => exact absurd hll h3
    | cons a t => rfl
  simp [parseStages, h1, h2, hl]

unseal S stripHtml jsTrim lc denyMatch cleanChapterContent extractContentByAnchor
unseal extractContentByAnchorE extractTitle jsonOfA anchorRegexOk strContains isPre
unseal ciPre idxOf firstIdxCiAux replaceAllSub collapseWs replTags removeTagBlocks
unseal replaceAllSubF collapseWsF replTagsF removeTagBlocksF splitOnChar splitHash
unseal jsOrStr nonEmpty mkey jsStringOf lastIdxOf jsWs lcChar anchorFindAux anchorIdx
unseal headingAt findHeading classChapterAt findClassChapter anchorMatchAt firstIdxCi

/-- C1: the claim states that for an HTML file holding two anchored
blocks referenced by two nav entries, the chapter extracted for the
first anchor does not contain the text of the second block.  This is
false on the code: anchor extraction takes the whole remainder of the
file, so the chapter for `ch1` contains the `ch2` block text. -/
theorem claim1_counterexample :
    parseEpub (some filesA1) = .ok ⟨S "Sample Book", S "Sample Author",
      [⟨S "Part One", S "Alpha bravo charlie delta echo foxtrot. Golf hotel india juliet kilo lima."⟩,
       ⟨S "Part Two", S "Golf hotel india juliet kilo lima."⟩]⟩ ∧
    strContains
      (S "Alpha bravo charlie delta echo foxtrot. Golf hotel india juliet kilo lima.")
      (S "Golf hotel india juliet kilo lima.") = true :=
  ⟨rfl, rfl⟩

/-- C1 (amended): each chapter starts right after its own anchor
element, so the chapter for the later anchor `ch2` contains only its own
block and none of the `ch1` text, but extraction is suffix-based (it
runs to the end of the file), so the chapter for `ch1` does contain the
`ch2` block text. -/
theorem claim1_amended :
    parseEpub (some filesA1) = .ok ⟨S "Sample Book", S "Sample Author",
      [⟨S "Part One", S "Alpha bravo charlie delta echo foxtrot. Golf hotel india juliet kilo lima."⟩,
       ⟨S "Part Two", S "Golf hotel india juliet kilo lima."⟩]⟩ ∧
    extractContentByAnchor
      (S "<html><body><div id=\"ch1\"><p>Alpha bravo charlie delta echo foxtrot.</p></div><div id=\"ch2\"><p>Golf hotel india juliet kilo lima.</p></div></body></html>")
      (S "ch2") = S "Golf hotel india juliet kilo lima." ∧
    strContains (S "Golf hotel india juliet kilo lima.") (S "Alpha") = false ∧
    strContains
      (S "Alpha bravo charlie delta echo foxtrot. Golf hotel india juliet kilo lima.")
      (S "Golf hotel india juliet kilo lima.") = true :=
  ⟨rfl, rfl, rfl, rfl⟩

/-- C2: the claim states the NCX resolver walks nested navPoints
recursively with no depth limit.  The prebuild script resolver
(`extractNavPoints`) does exactly that, but the in-app
`EpubParser.parse` NCX stage iterates only the top-level navPoints: on
an NCX with one top-level point containing one nested child, the app
parser yields only the top-level chapter while the script yields both,
in document order. -/
theorem claim2_code_divergence :
    parseEpub (some filesA2) = .ok ⟨S "Sample Book", S "Sample Author",
      [⟨S "Opening", S "It began on a quiet morning in the village."⟩]⟩ ∧
    extractNavPoints filesA2 [] (some (.one ncxTop)) =
      [⟨S "Opening", S "It began on a quiet morning in the village."⟩,
       ⟨S "Second Part", S "The second morning brought rain and cold wind."⟩] :=
  ⟨rfl, rfl⟩

/-- C3: the claim states that entities are decoded exactly one layer
deep, so `&amp;quot;Hello&amp;quot;` becomes `&quot;Hello&quot;` and
never the double-unescaped form.  False on the code: `&amp;` is decoded
before `&quot;`, so the result is the double-unescaped `"Hello"`. -/
theorem claim3_counterexample :
    stripHtml (S "&amp;quot;Hello&amp;quot;") = S "\"Hello\"" ∧
    S "\"Hello\"" ≠ S "&quot;Hello&quot;" :=
  ⟨rfl, by decide⟩

/-- C3 (amended): entity replacement is a fixed sequence with `&amp;`
decoded before `&lt;`, `&gt;`, `&quot;` and `&apos;`, so escaped forms
of those four entities are double-unescaped; only `&nbsp;` (replaced before
`&amp;`) and `&amp;` itself stay single-layer. -/
theorem claim3_amended :
    stripHtml (S "&amp;quot;Hello&amp;quot;") = S "\"Hello\"" ∧
    stripHtml (S "&amp;lt;tag&amp;gt;") = S "<tag>" ∧
    stripHtml (S "&amp;nbsp;") = S "&nbsp;" ∧
    stripHtml (S "&amp;amp;") = S "&amp;" :=
  ⟨rfl, rfl, rfl, rfl⟩

/-- C4: the claim states that a spine entry with denylisted derived
title still yields a chapter under a synthesized label.  False on the
code: `if (title && skipTitleKeywords.some(...)) continue` drops the
entry entirely, so a long file headed `<h1>Copyright</h1>` produces no
chapter at all. -/
theorem claim4_counterexample :
    parseEpub (some filesB4) = .ok ⟨S "Sample Book", S "Sample Author", []⟩ ∧
    (stripHtml (S "<h1>Copyright</h1><p>Beyond the mountains the winter came early that year, and the small town gathered wood and grain against the cold season ahead.</p>")).length > 100 ∧
    extractTitle (S "<h1>Copyright</h1><p>Beyond the mountains the winter came early that year, and the small town gathered wood and grain against the cold season ahead.</p>") =
      some (S "Copyright") ∧
    (spineSkipKeywords.any (fun kw => strContains (lc (S "d.html")) kw)) = false :=
  ⟨rfl, by decide, rfl, rfl⟩

/-- C4 (amended): in the spine fallback a sequential `Chương N` label is
synthesized only when no heading title is derived (or it is empty); an
entry whose derived title matches the denylist is dropped, not renamed.
The 3-item scenario with a filtered `cover.xhtml` still yields exactly
two chapters labelled `Chương 1` and `Chương 2` from items 1 and 3. -/
theorem claim4_amended :
    parseEpub (some filesA4) = .ok ⟨S "Sample Book", S "Sample Author",
      [⟨S "Chương 1", S "Along the river the travelers walked for many days, carrying water and bread, and telling quiet stories to pass the long hours."⟩,
       ⟨S "Chương 2", S "Beyond the mountains the winter came early that year, and the small town gathered wood and grain against the cold season ahead."⟩]⟩ ∧
    parseEpub (some filesB4) = .ok ⟨S "Sample Book", S "Sample Author", []⟩ :=
  ⟨rfl, rfl⟩

/-- C5: the claim states that parse throws only when the zip cannot be
opened, the container descriptor is missing, or the package document is
missing.  False on the code: a present package whose manifest lacks an
`item` raises a `TypeError` (`[undefined]` passed to `forEach`), even
though container and package documents are both present. -/
theorem claim5_counterexample :
    parseEpub (some filesF5) = .error (S "TypeError") ∧
    (zipFind filesF5 (S "META-INF/container.xml")).isSome = true ∧
    (zipFind filesF5 (S "content.opf")).isSome = true :=
  ⟨rfl, rfl, rfl⟩

/-- C5 (amended): for every archive whose structural skeleton is intact
(container resolvable, package with metadata of safe shape, manifest
items present, spine with itemref present), the parse never throws —
in particular a missing nav document, a missing NCX reference and
absent content files all degrade without raising. -/
theorem claim5_amended (files : List (Str × FileEntry))
    (h : skeletonOk files = true) : ∃ b, parseEpub (some files) = .ok b :=
  parseEpub_ok_of_skeleton files h

theorem claim5_amended_witness : ∃ b, parseEpub (some filesA4) = .ok b :=
  claim5_amended filesA4 (by rfl)

/-- C6: the stages are strict fallbacks.  When the nav stage produces at
least one chapter, the parse result is exactly the deduplicated nav
output, and neither the NCX document nor the spine reading order can
influence the result (replacing the NCX view of every file, or the
spine itemref list, changes nothing); when the nav stage is empty and
the NCX stage produces chapters, the result is the deduplicated NCX
output and the spine reading order is still irrelevant. -/
theorem claim6_fallback_order (files : List (Str × FileEntry)) (opfDir : Str)
    (items : List ManItem) (pkg : PkgRoot) (v : Option (OneOrMany NavPoint))
    (irs : Option (OneOrMany ItemRef)) :
    (navChapters files opfDir items ≠ [] →
      parseStages files opfDir items pkg =
        .ok (dedupChapters (navChapters files opfDir items)) ∧
      parseStages (updNcx files v) opfDir items pkg =
        parseStages files opfDir items pkg ∧
      parseStages files opfDir items (setItemref pkg irs) =
        parseStages files opfDir items pkg) ∧
    (∀ l, navChapters files opfDir items = [] →
      ncxStageE files opfDir items pkg = .ok l → l ≠ [] →
      parseStages files opfDir items pkg = .ok (dedupChapters l) ∧
      parseStages files opfDir items (setItemref pkg irs) =
        parseStages files opfDir items pkg) := by
  constructor
  · intro h
    have hp := parseStages_nav files opfDir items pkg h
    have h2 : navChapters (updNcx files v) opfDir items ≠ [] := by
      rw [navChapters_updNcx]; exact h
    have hpu := parseStages_nav (updNcx files v) opfDir items pkg h2
    rw [navChapters_updNcx] at hpu
    have hps := parseStages_nav files opfDir items (setItemref pkg irs) h
    exact ⟨hp, by rw [hpu, hp], by rw [hps, hp]⟩
  · intro l h1 h2 h3
    have hp := parseStages_ncx files opfDir items pkg l h1 h2 h3
    have h2s : ncxStageE files opfDir items (setItemref pkg irs) = .ok l := by
      rw [ncxStageE_setItemref]; exact h2
    have hps := parseStages_ncx files opfDir items (setItemref pkg irs) l h1 h2s h3
    exact ⟨hp, by rw [hps, hp]⟩

theorem claim6_fallback_order_witness :
    parseStages filesA1 (S "OEBPS/") itemsA1 pkgA1 =
      .ok (dedupChapters (navChapters filesA1 (S "OEBPS/") itemsA1)) :=
  ((claim6_fallback_order filesA1 (S "OEBPS/") itemsA1 pkgA1 none none).1 (by decide)).1

/-- C7: the final deduplication equals its specification — a chapter is
removed exactly when some earlier chapter has an exactly equal title and
exactly equal first 100 characters of content, the first occurrence is
kept, survivor order is preserved (the result is a sublist), and two
chapters sharing a title but differing inside their first 100 content
characters are both kept. -/
theorem claim7_dedup :
    (∀ l : List Chapter, dedupChapters l = dedupSpec l ∧ (dedupChapters l).Sublist l) ∧
    dedupChapters [⟨S "Alpha", S "same start"⟩, ⟨S "Alpha", S "same start"⟩] =
      [⟨S "Alpha", S "same start"⟩] ∧
    dedupChapters [⟨S "Alpha", S "first body"⟩, ⟨S "Alpha", S "other body"⟩] =
      [⟨S "Alpha", S "first body"⟩, ⟨S "Alpha", S "other body"⟩] :=
  ⟨fun l => ⟨dedupChapters_eq_spec l, dedupChapters_sublist l⟩, by decide, by decide⟩

/-- C8: every chapter produced by the spine fallback stores the stripped
file text, trimmed and capped at 100000 characters, with no title-echo
removal; concretely, a fallback chapter whose file body begins with its
own heading keeps the echoed title at the start of its content, while
`cleanChapterContent` (applied only on the nav and NCX paths) would have
removed it. -/
theorem claim8_spine_no_echo_removal :
    (∀ (files : List (Str × FileEntry)) (opfDir : Str)
       (manifest : List (Str × Option Str)) (idrefs : List (Option Str)) (c : Chapter),
       c ∈ spineLoop files opfDir manifest idrefs →
       ∃ p fe, zipFind files p = some fe ∧
         c.content = (stripHtml fe.text).take 100000) ∧
    parseEpub (some filesEcho) = .ok ⟨S "Sample Book", S "Sample Author",
      [⟨S "Chapter One", S "Chapter One Chapter One. It was a dark and stormy night when the travelers finally reached the gates of the silent city."⟩]⟩ ∧
    isPre (S "Chapter One")
      (S "Chapter One Chapter One. It was a dark and stormy night when the travelers finally reached the gates of the silent city.") = true ∧
    cleanChapterContent (S "Chapter One")
      (S "Chapter One Chapter One. It was a dark and stormy night when the travelers finally reached the gates of the silent city.") ≠
      S "Chapter One Chapter One. It was a dark and stormy night when the travelers finally reached the gates of the silent city." :=
  ⟨fun files opfDir manifest idrefs c h => mem_spineLoop files opfDir manifest idrefs c h,
   rfl, rfl, by decide⟩

theorem claim8_witness :
    ∃ p fe, zipFind filesEcho p = some fe ∧
      (Chapter.mk (S "Chapter One") (S "Chapter One Chapter One. It was a dark and stormy night when the travelers finally reached the gates of the silent city.")).content =
        (stripHtml fe.text).take 100000 :=
  claim8_spine_no_echo_removal.1 filesEcho []
    (mkManifest [⟨some (S "e"), some (S "e1.html"), none⟩]) [some (S "e")]
    ⟨S "Chapter One", S "Chapter One Chapter One. It was a dark and stormy night when the travelers finally reached the gates of the silent city."⟩
    (by decide)

/-- C9: the title denylist contains the broad tokens `title`, `nav`,
`info`, `intro`, `author`, matched as case-insensitive substrings, so a
legitimate title such as `Navigating Home` or `The Uninformed Guest`
matches; no chapter emitted by the nav or NCX loops carries a
denylist-matching title, and a nav document whose only entry is titled
`Navigating Home` yields no chapter even over a long content file. -/
theorem claim9_denylist :
    ((S "title") ∈ skipTitleKeywords ∧ (S "nav") ∈ skipTitleKeywords ∧
     (S "info") ∈ skipTitleKeywords ∧ (S "intro") ∈ skipTitleKeywords ∧
     (S "author") ∈ skipTitleKeywords) ∧
    denyMatch (S "Navigating Home") = true ∧
    denyMatch (S "The Uninformed Guest") = true ∧
    (∀ (files : List (Str × FileEntry)) (opfDir : Str) (lis : List NavLi) (c : Chapter),
      c ∈ navLoop files opfDir lis → denyMatch c.title = false) ∧
    (∀ (files : List (Str × FileEntry)) (opfDir : Str) (pts : List NavPoint) (c : Chapter),
      c ∈ ncxLoop files opfDir pts → denyMatch c.title = false) ∧
    navChapters filesC9 [] itemsC9 = [] := by
  refine ⟨by decide, rfl, rfl, ?_, ?_, rfl⟩
  · intro files opfDir lis c h
    obtain ⟨li, _, hpe⟩ := mem_navLoop files opfDir lis c h
    exact processNavEntry_deny files opfDir li c hpe
  · intro files opfDir pts c h
    obtain ⟨p, _, hpe⟩ := mem_ncxLoop files opfDir pts c h
    exact processNcxPoint_deny files opfDir p c hpe

theorem claim9_witness :
    denyMatch (Chapter.mk (S "Part One")
      (S "Alpha bravo charlie delta echo foxtrot. Golf hotel india juliet kilo lima.")).title = false :=
  claim9_denylist.2.2.2.1 filesA1 (S "OEBPS/") navLisA1
    ⟨S "Part One", S "Alpha bravo charlie delta echo foxtrot. Golf hotel india juliet kilo lima."⟩
    (by decide)

/-- C10: each nav or NCX entry runs inside its own exception handler:
whenever processing one entry throws (for instance an anchor that is an
invalid regular expression), exactly that entry is dropped — the loop
over the remaining entries, with the accumulated chapters, is unchanged. -/
theorem claim10_per_entry_try :
    (∀ (files : List (Str × FileEntry)) (opfDir : Str) (e : NavLi)
       (pre post : List NavLi), processNavEntry files opfDir e = .error () →
       navLoop files opfDir (pre ++ e :: post) = navLoop files opfDir (pre ++ post)) ∧
    (∀ (files : List (Str × FileEntry)) (opfDir : Str) (p : NavPoint)
       (pre post : List NavPoint), processNcxPoint files opfDir p = .error () →
       ncxLoop files opfDir (pre ++ p :: post) = ncxLoop files opfDir (pre ++ post)) :=
  ⟨fun files opfDir e pre post h => navLoop_skip_error files opfDir e h pre post,
   fun files opfDir p pre post h => ncxLoop_skip_error files opfDir p h pre post⟩

theorem claim10_witness :
    navLoop filesFBad [] ([liGood] ++ liBad :: []) = navLoop filesFBad [] ([liGood] ++ []) :=
  claim10_per_entry_try.1 filesFBad [] liBad [liGood] [] rfl
